import Mathlib

/-!
# FINN preprocessor — verification of the spec against `work_generic/main_generic.ipynb`

This file shallowly embeds the pipeline driver of the FINN preprocessor
notebook (`src/work_generic/main_generic.ipynb`) together with models of the
collaborator modules it invokes (`downloader`, `af_import`, `run_step1`,
`run_step2`), and proves or refutes the frozen claims about it.

The notebook is the only file of the repository available here; the modules in
`code_anaconda/` (downloader, run_step1, run_step2, af_import, …) are not part
of the visible source.  Where a claim is decided by one of those modules, the
module is modelled from the specification's description, and each such
definition carries a doc comment starting with `Modelled from the spec:`.
Definitions taken from the notebook itself keep the notebook's names.
-/

namespace Finn

/-! ## Tile identifiers and inventory (InventoryResolver) -/

/-- A MODIS sinusoidal-grid tile identifier: horizontal and vertical index. -/
structure TileId where
  h : Nat
  v : Nat
deriving DecidableEq, Repr

/-- Modelled from the spec: the store-side inventory visible to
`InventoryResolver` (module `downloader`, absent from the visible source).
`imported` holds the (dataset tag, tile) pairs successfully imported into the
spatial store; `downloadedLocal` holds the (tag, tile) pairs staged in the
local download directory but not necessarily imported. -/
structure StoreInv where
  imported : List (String × TileId)
  downloadedLocal : List (String × TileId)

/-- Modelled from the spec: whether a tile counts as *present* for a dataset
tag.  Presence is decided strictly by successful import into the store; the
local download directory is not consulted. -/
def tile_present (s : StoreInv) (tag : String) (t : TileId) : Bool :=
  s.imported.contains (tag, t)

/-- Ephemeral result of `InventoryResolver` for one dataset tag. -/
structure TileNeedReport where
  required : List TileId
  present : List TileId
  missing : List TileId
deriving Repr

/-- Modelled from the spec: `resolve` for one dataset tag (the per-tag core of
`downloader.find_tiles_indb`, absent from the visible source).  Given the
required tile set for the extent, it queries the store and computes
`missing = required - present`. -/
def resolve_tag (s : StoreInv) (tag : String) (required : List TileId) :
    TileNeedReport :=
  { required := required
    present := required.filter (fun t => tile_present s tag t)
    missing := required.filter (fun t => !tile_present s tag t) }

/-! ## FetchManager: download only needed, purge corrupted -/

/-- Modelled from the spec: `downloader.download_only_needed` (absent from the
visible source).  Given the tiles staged in the local download directory and
the tiles required, it downloads exactly the required tiles not already
staged.  Returns the list of download operations performed and the new state
of the local directory. -/
def download_only_needed (ldir : List TileId) (tiles : List TileId) :
    List TileId × List TileId :=
  let toGet := tiles.filter (fun t => !ldir.contains t)
  (toGet, ldir ++ toGet)

/-- Outcome of verifying and (possibly) repairing one staged file. -/
inductive FileOutcome where
  | verified
  | repaired
  | permanentFailure
deriving DecidableEq, Repr

/-- A staged tile file, with an oracle giving the result of the n-th
integrity verification of the bytes present after n re-downloads
(attempt 0 verifies the originally downloaded file). -/
structure StagedFile where
  name : String
  verifyOk : Nat → Bool

/-- Modelled from the spec: the per-file verify-and-repair step of
`downloader.purge_corrupted` (absent from the visible source).  The staged
file is verified; on failure it is deleted and re-downloaded exactly once and
verified again; a second failure is reported as a permanent failure, with no
further download.  Returns the outcome and the number of re-downloads
performed. -/
def purge_file (f : StagedFile) : FileOutcome × Nat :=
  if f.verifyOk 0 then (.verified, 0)
  else if f.verifyOk 1 then (.repaired, 1)
  else (.permanentFailure, 1)

/-- Modelled from the spec: `downloader.purge_corrupted` over a staging
directory: every staged file is verified and repaired independently, and a
report line is produced for each. -/
def purge_corrupted (fs : List StagedFile) : List (String × FileOutcome × Nat) :=
  fs.map (fun f => (f.name, purge_file f))

/-! ## Raster archive URLs (notebook cell "Raster files URL and directories") -/

/-- Leap-year test exactly as the notebook writes it:
`is_leap = (year_rst % 4 == 0)`. -/
def is_leap (year_rst : Nat) : Bool :=
  year_rst % 4 == 0

/-- Python `"%02d"` formatting for the small day numbers used here. -/
def two_digit (n : Nat) : String :=
  if n < 10 then "0" ++ toString n else toString n

/-- The notebook's land-cover archive URL:
`'https://e4ftl01.cr.usgs.gov/MOTA/MCD12Q1.006/%d.01.01/' % year_rst`. -/
def url_lct (year_rst : Nat) : String :=
  "https://e4ftl01.cr.usgs.gov/MOTA/MCD12Q1.006/" ++ toString year_rst
    ++ ".01.01/"

/-- The notebook's vegetation-continuous-field archive URL:
`'https://e4ftl01.cr.usgs.gov/MOLT/MOD44B.006/%d.03.%02d/' % (year_rst, 5 if is_leap else 6)`. -/
def url_vcf (year_rst : Nat) : String :=
  "https://e4ftl01.cr.usgs.gov/MOLT/MOD44B.006/" ++ toString year_rst
    ++ ".03." ++ two_digit (if is_leap year_rst then 5 else 6) ++ "/"

/-! ## Data model: detections -/

/-- A raw active-fire point observation.  `valid` records whether its
coordinates and date are present and parseable (invalid detections are
excluded from grouping and reported). -/
structure FireDetection where
  det_id : Nat
  lon : Int
  lat : Int
  day : Nat
  valid : Bool
deriving DecidableEq, Repr

/-! ## Layer configuration (notebook cell `rasters`) -/

/-- One record of the `rasters` layer-configuration list.  The notebook's
dict keys `variable`, `variables`, `variable_in` become `var`, `vars`,
`var_in`; keys absent from a record are `none`. -/
structure RasterCfg where
  tag : String
  kind : String
  var : Option String
  vars : Option (List String)
  var_in : Option String
deriving DecidableEq, Repr

/-- `tag_lct = 'modlct_%d' % year_rst` from the notebook. -/
def tag_lct (year_rst : Nat) : String := "modlct_" ++ toString year_rst

/-- `tag_vcf = 'modvcf_%d' % year_rst` from the notebook. -/
def tag_vcf (year_rst : Nat) : String := "modvcf_" ++ toString year_rst

/-- `tag_regnum = 'regnum'` from the notebook. -/
def tag_regnum : String := "regnum"

/-- The notebook's `rasters` configuration list, verbatim. -/
def rasters (year_rst : Nat) : List RasterCfg :=
  [ { tag := tag_lct year_rst, kind := "thematic", var := some "lct",
      vars := none, var_in := none },
    { tag := tag_vcf year_rst, kind := "continuous", var := none,
      vars := some ["tree", "herb", "bare"], var_in := none },
    { tag := tag_regnum, kind := "polygons", var := some "regnum",
      vars := none, var_in := some "region_num" } ]

/-- Modelled from the spec: the configuration check performed by the
attribute-join step (`run_step2`, absent from the visible source).  A record
is valid when its kind is one of `thematic`, `continuous`, `polygons` and the
fields that kind requires are present; any other kind is a configuration
error. -/
def valid_cfg (r : RasterCfg) : Bool :=
  match r.kind with
  | "thematic" => r.var.isSome
  | "continuous" => r.vars.isSome
  | "polygons" => r.var.isSome && r.var_in.isSome
  | _ => false

/-! ## Pipeline driver (the notebook's top-to-bottom control flow) -/

/-- The result dict of `downloader.find_tiles_indb`, as the notebook reads
it: `n_need`, `tiles_missing_lct`, `tiles_missing_vcf`,
`tiles_required_lct`, `tiles_required_vcf`. -/
structure InvResults where
  n_need : Nat
  tiles_missing_lct : List TileId
  tiles_missing_vcf : List TileId
  tiles_required_lct : List TileId
  tiles_required_vcf : List TileId
deriving DecidableEq, Repr

/-- The notebook's `need_to_import_lct` flag: `False` when
`results_indb['n_need'] == 0`, else `len(tiles_missing_lct) > 0`. -/
def need_to_import_lct (r : InvResults) : Bool :=
  if r.n_need = 0 then false else decide (0 < r.tiles_missing_lct.length)

/-- The notebook's `need_to_import_vcf` flag, symmetric to
`need_to_import_lct`. -/
def need_to_import_vcf (r : InvResults) : Bool :=
  if r.n_need = 0 then false else decide (0 < r.tiles_missing_vcf.length)

/-- The notebook's `need_to_import_regnum` flag:
`not downloader.find_table_indb('raster', '"rst_regnum"')`, where
`regnum_in_db` is the store query's result. -/
def need_to_import_regnum (regnum_in_db : Bool) : Bool :=
  !regnum_in_db

/-- The externally observable operations the notebook driver can perform,
in the order the cells run them. -/
inductive Action where
  | importAF
  | downloadTiles (tag : String)
  | verifyTiles (tag : String)
  | importRaster (tag : String)
  | importPolygons (tag : String)
  | groupEvents
  | joinAttributes
  | exportOutput
deriving DecidableEq, Repr

/-- Stage outcome of a driver run. -/
inductive Outcome where
  | ok
  | configError
deriving DecidableEq, Repr

/-- The relational store as the driver sees it: the contents of the
active-fire schema `af_<tag_af>`, when that schema holds imported data. -/
structure DB where
  afData : Option (List FireDetection)
deriving DecidableEq, Repr

/-- `af_import.main` as the notebook itself documents it ("the code has no
safe guard and wipe the schema af_<tag_af> and starts over"): the schema's
previous contents are dropped and the input files are imported anew. -/
def af_import_main (input : List FireDetection) (db : DB) : DB :=
  { db with afData := some input }

/-- Modelled from the spec: the action/outcome of `run_step2.main` (absent
from the visible source).  An invalid layer configuration is a fatal
configuration error and no attribute join is performed; otherwise the join
runs. -/
def run_step2_main (cfg : List RasterCfg) : List Action × Outcome :=
  if cfg.all valid_cfg then ([Action.joinAttributes], Outcome.ok)
  else ([], Outcome.configError)

/-- The notebook driver, cell by cell: import the active-fire files
(destructively), resolve the tile inventory (`inv`, `regnum_in_db` are the
store-query results), download/verify/import the land-cover and
vegetation-continuous-field rasters only when their need flags are set, pull
in the region polygons only when absent, group events (step 1), join
attributes (step 2, which checks the layer configuration), then export.
Returns the action trace, the outcome, and the final store state. -/
def driver (year_rst : Nat) (cfg : List RasterCfg) (inv : InvResults)
    (regnum_in_db : Bool) (input : List FireDetection) (db : DB) :
    List Action × Outcome × DB :=
  let db1 := af_import_main input db
  let fetch_acts : List Action :=
    (if need_to_import_lct inv then
        [Action.downloadTiles (tag_lct year_rst),
         Action.verifyTiles (tag_lct year_rst)]
      else []) ++
    (if need_to_import_vcf inv then
        [Action.downloadTiles (tag_vcf year_rst),
         Action.verifyTiles (tag_vcf year_rst)]
      else []) ++
    (if need_to_import_lct inv then [Action.importRaster (tag_lct year_rst)]
      else []) ++
    (if need_to_import_vcf inv then [Action.importRaster (tag_vcf year_rst)]
      else []) ++
    (if need_to_import_regnum regnum_in_db then
        [Action.importPolygons tag_regnum]
      else [])
  let step2 := run_step2_main cfg
  (Action.importAF :: (fetch_acts ++ Action.groupEvents :: step2.1 ++
      (if step2.2 = Outcome.ok then [Action.exportOutput] else [])),
    step2.2, db1)

/-! ## AttributeJoiner: thematic summaries (step 2) -/

/-- The raster cells a fire-event geometry intersects in one thematic layer:
`some c` is a cell carrying category `c`, `none` a cell outside the layer's
data extent (a coverage gap). -/
def data_cells (cells : List (Option String)) : List String :=
  cells.filterMap id

/-- Modelled from the spec: the weight of one category in a thematic
AttributeSummary — the fraction of the event's intersected raster cells
carrying that category (computed by `run_step2`, absent from the visible
source). -/
def category_weight (cells : List (Option String)) (c : String) : ℚ :=
  ((data_cells cells).count c : ℚ) / (cells.length : ℚ)

/-- Modelled from the spec: the thematic AttributeSummary of one event for
one layer — category-to-weight pairs over the categories that occur in the
covered cells. -/
def thematic_summary (cells : List (Option String)) : List (String × ℚ) :=
  (data_cells cells).dedup.map (fun c => (c, category_weight cells c))

/-- Modelled from the spec: the dominant category and its confidence
fraction — the output fields `v_<var>` and `f_<var>` of `run_step2` (absent
from the visible source) — obtained as the highest-weight entry of the
thematic summary. -/
def dominant_category (cells : List (Option String)) : Option (String × ℚ) :=
  (thematic_summary cells).foldl
    (fun acc p =>
      match acc with
      | none => some p
      | some q => if q.2 < p.2 then some p else some q) none

/-- A fully covered intersection: every intersected cell carries data. -/
def fully_covered (cells : List (Option String)) : Prop :=
  ∀ x ∈ cells, x.isSome = true

instance (cells : List (Option String)) : Decidable (fully_covered cells) :=
  List.decidableBAll _ cells

/-! ## EventGrouper (step 1) -/

/-- Spatial and temporal thresholds of the grouper — configuration
constants, not inferred from data.  `dist2_threshold` bounds the squared
distance between a detection and a cluster member; `max_duration` bounds an
event's date span in days. -/
structure GroupConfig where
  dist2_threshold : Int
  max_duration : Nat
deriving DecidableEq, Repr

/-- A fire event: member detections, a stable identifier, and the date span
of its members. -/
structure FireEvent where
  ev_id : Nat
  members : List FireDetection
  firstDay : Nat
  lastDay : Nat
deriving DecidableEq, Repr

/-- Squared planar distance between two detections. -/
def dist2 (p q : FireDetection) : Int :=
  (p.lon - q.lon) ^ 2 + (p.lat - q.lat) ^ 2

/-- Modelled from the spec: a detection is spatially near a cluster when it
lies within the spatial threshold of one of the cluster's members. -/
def spatial_near (cfg : GroupConfig) (d : FireDetection) (e : FireEvent) : Bool :=
  e.members.any (fun m => decide (dist2 d m ≤ cfg.dist2_threshold))

/-- Modelled from the spec: a cluster is an eligible home for a detection
when the detection is spatially near it and joining keeps the event's date
span within the maximum event duration. -/
def eligible (cfg : GroupConfig) (d : FireDetection) (e : FireEvent) : Bool :=
  spatial_near cfg d e &&
    decide (max e.lastDay d.day - min e.firstDay d.day ≤ cfg.max_duration)

/-- Squared distance from a detection to a cluster's centroid, scaled by the
square of the cluster size so the arithmetic stays over `Int`. -/
def cdist2 (d : FireDetection) (e : FireEvent) : Int :=
  let n : Int := e.members.length
  let sx := (e.members.map FireDetection.lon).sum
  let sy := (e.members.map FireDetection.lat).sum
  (n * d.lon - sx) ^ 2 + (n * d.lat - sy) ^ 2

/-- Modelled from the spec: the tie-break order between two candidate
clusters — nearer representative centroid first, exact ties by lowest
cluster identifier.  The scaled squared distances are compared after
cross-multiplying by the cluster sizes. -/
def nearer (d : FireDetection) (p q : FireEvent) : Bool :=
  let a := cdist2 d p * (q.members.length : Int) ^ 2
  let b := cdist2 d q * (p.members.length : Int) ^ 2
  decide (a < b) || (decide (a = b) && decide (p.ev_id < q.ev_id))

/-- The eligible clusters for a detection, paired with their positions in
the current event list (`k` is the position of the list's head). -/
def candidates (cfg : GroupConfig) (d : FireDetection) :
    List FireEvent → Nat → List (Nat × FireEvent)
  | [], _ => []
  | e :: es, k =>
      (if eligible cfg d e then [(k, e)] else []) ++ candidates cfg d es (k + 1)

/-- Modelled from the spec: choose the home cluster for a detection — the
eligible cluster with the nearer centroid, ties by lowest identifier. -/
def pick_best (cfg : GroupConfig) (d : FireDetection)
    (evts : List FireEvent) : Option (Nat × FireEvent) :=
  (candidates cfg d evts 0).foldl
    (fun acc p =>
      match acc with
      | none => some p
      | some q => if nearer d p.2 q.2 then some p else some q) none

/-- Add a detection to an event, widening the date span. -/
def add_to_event (d : FireDetection) (e : FireEvent) : FireEvent :=
  { e with
    members := d :: e.members
    firstDay := min e.firstDay d.day
    lastDay := max e.lastDay d.day }

/-- Replace the element at one position of the event list. -/
def modify_idx : List FireEvent → Nat → (FireEvent → FireEvent) → List FireEvent
  | [], _, _ => []
  | e :: es, 0, f => f e :: es
  | e :: es, i + 1, f => e :: modify_idx es i f

/-- Modelled from the spec: one step of the grouper.  A valid detection
joins its chosen eligible cluster, or opens a fresh cluster with the next
identifier; an invalid detection is left out of the clustering.  The state
is the open event list and the next fresh identifier. -/
def group_step (cfg : GroupConfig) (st : List FireEvent × Nat)
    (d : FireDetection) : List FireEvent × Nat :=
  if d.valid then
    match pick_best cfg d st.1 with
    | some (i, _) => (modify_idx st.1 i (add_to_event d), st.2)
    | none =>
        (st.1 ++ [{ ev_id := st.2, members := [d],
                    firstDay := d.day, lastDay := d.day }], st.2 + 1)
  else st

/-- Modelled from the spec: `group(detections)` of `run_step1` (absent from
the visible source) — fold the detections, in their temporal input order,
through the grouping step. -/
def group (cfg : GroupConfig) (dets : List FireDetection) : List FireEvent :=
  (dets.foldl (group_step cfg) ([], 0)).1

/-- Modelled from the spec: the report of detections excluded from grouping
because of missing or invalid coordinates or dates. -/
def invalid_report (dets : List FireDetection) : List FireDetection :=
  dets.filter (fun d => !d.valid)

/-- All member detections across an event list. -/
def all_members (evts : List FireEvent) : List FireDetection :=
  (evts.map FireEvent.members).flatten

/-! ## Concrete instances used by witnesses and counterexamples -/

/-- A store inventory holding one tile downloaded locally but not imported. -/
def inv_downloaded_only : StoreInv :=
  { imported := [], downloadedLocal := [("modlct_2017", { h := 7, v := 5 })] }

/-- A staged file whose integrity verification fails on every attempt. -/
def always_bad_file : StagedFile :=
  { name := "MCD12Q1.A2016001.h08v05.006.hdf", verifyOk := fun _ => false }

/-- Inventory query result with nothing missing (`n_need == 0`). -/
def inv_covered : InvResults :=
  { n_need := 0, tiles_missing_lct := [], tiles_missing_vcf := [],
    tiles_required_lct := [], tiles_required_vcf := [] }

/-- Inventory query result with one land-cover tile missing. -/
def inv_lct_missing : InvResults :=
  { n_need := 1, tiles_missing_lct := [{ h := 8, v := 5 }],
    tiles_missing_vcf := [], tiles_required_lct := [{ h := 8, v := 5 }],
    tiles_required_vcf := [] }

/-- A configuration list whose single record has an unknown kind. -/
def cfg_unknown_kind : List RasterCfg :=
  [ { tag := "modlct_2016", kind := "categorical", var := some "lct",
      vars := none, var_in := none } ]

/-- A store that already holds imported active-fire detection data. -/
def db_populated : DB :=
  { afData := some [{ det_id := 1, lon := 0, lat := 0, day := 10, valid := true }] }

/-- A fresh input detection list, different from the data already in
`db_populated`. -/
def input_new : List FireDetection :=
  [{ det_id := 2, lon := 5, lat := 5, day := 20, valid := true }]

/-- Intersected raster cells that are 70% class "forest" and 30% class
"grass", all covered. -/
def cells70 : List (Option String) :=
  [some "forest", some "forest", some "forest", some "forest", some "forest",
   some "forest", some "forest", some "grass", some "grass", some "grass"]

/-- A grouper configuration: squared spatial threshold 25, maximum event
duration 3 days. -/
def cfgW : GroupConfig := { dist2_threshold := 25, max_duration := 3 }

/-- Two nearby detections on day 1, one distant detection on day 5, and one
invalid detection. -/
def dw1 : FireDetection := { det_id := 1, lon := 0, lat := 0, day := 1, valid := true }

/-- Second detection of the witness set, 3 units from `dw1` on the same day. -/
def dw2 : FireDetection := { det_id := 2, lon := 3, lat := 0, day := 1, valid := true }

/-- Third detection of the witness set, far away and four days later. -/
def dw3 : FireDetection := { det_id := 3, lon := 100, lat := 100, day := 5, valid := true }

/-- Fourth detection of the witness set, with invalid coordinates/date. -/
def dw4 : FireDetection := { det_id := 4, lon := 0, lat := 0, day := 2, valid := false }

/-- The witness detection list. -/
def detsW : List FireDetection := [dw1, dw2, dw3, dw4]

/-! ## Theorems -/

/-- C10: for every `year_rst`, the remote vegetation-continuous-field
archive URL is built with date component `<year_rst>.03.05` when `year_rst`
is divisible by 4 and `<year_rst>.03.06` otherwise; the `% 4` test is the
sole leap-year test, so the century year 2100 is treated as a leap year. -/
theorem c10_url_vcf_leap_rule (year_rst : Nat) :
    (year_rst % 4 = 0 →
      url_vcf year_rst = "https://e4ftl01.cr.usgs.gov/MOLT/MOD44B.006/"
        ++ toString year_rst ++ ".03.05/") ∧
    (year_rst % 4 ≠ 0 →
      url_vcf year_rst = "https://e4ftl01.cr.usgs.gov/MOLT/MOD44B.006/"
        ++ toString year_rst ++ ".03.06/") ∧
    url_vcf 2100 = "https://e4ftl01.cr.usgs.gov/MOLT/MOD44B.006/2100.03.05/" := by
  refine ⟨fun h => ?_, fun h => ?_, by decide⟩
  · have hb : (year_rst % 4 == 0) = true := by simpa using h
    simp only [url_vcf, is_leap, two_digit, hb, String.append_assoc, if_true]
    congr 1
  · have hb : (year_rst % 4 == 0) = false := by simpa using h
    simp only [url_vcf, is_leap, two_digit, hb, String.append_assoc,
      Bool.false_eq_true, if_false]
    congr 1

/-- Witness for C10 at the concrete years 2016 (divisible by 4) and 2019. -/
theorem c10_url_vcf_leap_rule_witness :
    url_vcf 2016 = "https://e4ftl01.cr.usgs.gov/MOLT/MOD44B.006/"
        ++ toString 2016 ++ ".03.05/" ∧
    url_vcf 2019 = "https://e4ftl01.cr.usgs.gov/MOLT/MOD44B.006/"
        ++ toString 2019 ++ ".03.06/" :=
  ⟨(c10_url_vcf_leap_rule 2016).1 (by decide),
   (c10_url_vcf_leap_rule 2019).2.1 (by decide)⟩

/-- C4: `resolve` computes `missing = required - present`, where a tile is
present only when it is imported into the store; a tile staged in the local
download directory but not imported is in the missing set. -/
theorem c4_resolve_missing_strict (s : StoreInv) (tag : String)
    (required : List TileId) :
    (∀ t, t ∈ (resolve_tag s tag required).missing ↔
       t ∈ required ∧ (tag, t) ∉ s.imported) ∧
    (∀ t ∈ required, (tag, t) ∈ s.downloadedLocal → (tag, t) ∉ s.imported →
       t ∈ (resolve_tag s tag required).missing) := by
  have hmem : ∀ t, t ∈ (resolve_tag s tag required).missing ↔
      t ∈ required ∧ (tag, t) ∉ s.imported := by
    intro t
    simp [resolve_tag, List.mem_filter, tile_present]
  exact ⟨hmem, fun t ht _ hni => (hmem t).2 ⟨ht, hni⟩⟩

/-- Witness for C4: a tile downloaded locally but not imported counts as
missing. -/
theorem c4_resolve_missing_strict_witness :
    ({ h := 7, v := 5 } : TileId) ∈
      (resolve_tag inv_downloaded_only "modlct_2017" [{ h := 7, v := 5 }]).missing :=
  (c4_resolve_missing_strict inv_downloaded_only "modlct_2017"
      [{ h := 7, v := 5 }]).2 { h := 7, v := 5 } (by decide) (by decide) (by decide)

/-- C5: re-running the fetch step over the local directory produced by a
previous run of the same fetch, with no store changes in between, performs
zero download operations. -/
theorem c5_fetch_idempotent (ldir tiles : List TileId) :
    (download_only_needed (download_only_needed ldir tiles).2 tiles).1 = [] := by
  simp only [download_only_needed, List.filter_eq_nil_iff]
  intro t ht
  by_cases h : t ∈ ldir <;> simp [h, ht]

/-- C2: verification deletes and re-downloads a failing file exactly once; a
file failing twice yields one permanent-failure report and no third
download, whatever later verifications would say; every staged file gets
exactly one report line, so the other tiles' processing continues. -/
theorem c2_bounded_retry (fs : List StagedFile) (f : StagedFile) (hf : f ∈ fs) :
    (purge_file f).2 ≤ 1 ∧
    (f.verifyOk 0 = false → (purge_file f).2 = 1) ∧
    (f.verifyOk 0 = false → f.verifyOk 1 = false →
      purge_file f = (FileOutcome.permanentFailure, 1)) ∧
    (f.name, purge_file f) ∈ purge_corrupted fs ∧
    (purge_corrupted fs).length = fs.length := by
  refine ⟨?_, fun h0 => ?_, fun h0 h1 => ?_, ?_, ?_⟩
  · by_cases h0 : f.verifyOk 0 <;> by_cases h1 : f.verifyOk 1 <;>
      simp [purge_file, h0, h1]
  · by_cases h1 : f.verifyOk 1 <;> simp [purge_file, h0, h1]
  · simp [purge_file, h0, h1]
  · exact List.mem_map_of_mem (fun g => (g.name, purge_file g)) hf
  · exact List.length_map fs _

/-- Witness for C2: a file failing verification on every attempt is reported
as a permanent failure with a single re-download. -/
theorem c2_bounded_retry_witness :
    purge_file always_bad_file = (FileOutcome.permanentFailure, 1) ∧
    (purge_corrupted [always_bad_file]).length = 1 :=
  ⟨(c2_bounded_retry [always_bad_file] always_bad_file (List.Mem.head _)).2.2.1
      rfl rfl,
   (c2_bounded_retry [always_bad_file] always_bad_file (List.Mem.head _)).2.2.2.2⟩

/-- C1: when the inventory reports zero missing tiles (`n_need == 0`) and the
region-polygon layer is already in the store, the driver performs no tile
download, no integrity verification and no raster import for any tag, and
its trace goes straight from the active-fire import to event grouping. -/
theorem c1_short_circuit (year_rst : Nat) (cfg : List RasterCfg)
    (inv : InvResults) (regnum_in_db : Bool) (input : List FireDetection)
    (db : DB) (h1 : inv.n_need = 0) (h2 : regnum_in_db = true) :
    (∀ tag, Action.downloadTiles tag ∉
        (driver year_rst cfg inv regnum_in_db input db).1) ∧
    (∀ tag, Action.verifyTiles tag ∉
        (driver year_rst cfg inv regnum_in_db input db).1) ∧
    (∀ tag, Action.importRaster tag ∉
        (driver year_rst cfg inv regnum_in_db input db).1) ∧
    (∃ rest, (driver year_rst cfg inv regnum_in_db input db).1 =
        Action.importAF :: Action.groupEvents :: rest) := by
  have htr : (driver year_rst cfg inv regnum_in_db input db).1 =
      Action.importAF :: Action.groupEvents :: ((run_step2_main cfg).1 ++
        (if (run_step2_main cfg).2 = Outcome.ok then [Action.exportOutput]
          else [])) := by
    simp [driver, need_to_import_lct, need_to_import_vcf,
      need_to_import_regnum, h1, h2]
  rw [htr]
  refine ⟨fun tag => ?_, fun tag => ?_, fun tag => ?_, ⟨_, rfl⟩⟩ <;>
    by_cases hc : cfg.all valid_cfg <;>
      simp [run_step2_main, hc]

/-- Witness for C1 on a populated store: nothing is fetched or imported and
grouping follows the active-fire import directly. -/
theorem c1_short_circuit_witness :
    Action.downloadTiles "modlct_2016" ∉
      (driver 2016 (rasters 2016) inv_covered true [] { afData := none }).1 ∧
    (∃ rest, (driver 2016 (rasters 2016) inv_covered true []
        { afData := none }).1 =
      Action.importAF :: Action.groupEvents :: rest) :=
  ⟨(c1_short_circuit 2016 (rasters 2016) inv_covered true []
      { afData := none } rfl rfl).1 "modlct_2016",
   (c1_short_circuit 2016 (rasters 2016) inv_covered true []
      { afData := none } rfl rfl).2.2.2⟩

/-- C8 fails as stated: in this run an unknown-kind configuration record is
fatal, but the failure surfaces only when step 2 consumes the configuration,
after a tile download (and raster import) has already been performed. -/
theorem c8_counterexample :
    (driver 2016 cfg_unknown_kind inv_lct_missing true []
        { afData := none }).2.1 = Outcome.configError ∧
    Action.downloadTiles "modlct_2016" ∈
      (driver 2016 cfg_unknown_kind inv_lct_missing true []
        { afData := none }).1 ∧
    Action.importRaster "modlct_2016" ∈
      (driver 2016 cfg_unknown_kind inv_lct_missing true []
        { afData := none }).1 := by
  decide

/-- C8 amended: a configuration record with an unknown kind or a missing
required field is fatal — the run ends with a configuration error, and no
attribute join and no export is performed — but the failure occurs when the
attribute-join step consumes the configuration, not at startup, so
download/import I/O for missing tiles may already have run. -/
theorem c8_config_error_fatal (year_rst : Nat) (cfg : List RasterCfg)
    (inv : InvResults) (regnum_in_db : Bool) (input : List FireDetection)
    (db : DB) (h : cfg.all valid_cfg = false) :
    (driver year_rst cfg inv regnum_in_db input db).2.1 =
      Outcome.configError ∧
    Action.joinAttributes ∉ (driver year_rst cfg inv regnum_in_db input db).1 ∧
    Action.exportOutput ∉ (driver year_rst cfg inv regnum_in_db input db).1 := by
  refine ⟨?_, ?_, ?_⟩ <;>
    simp [driver, run_step2_main, h]

/-- Witness for the amended C8 at a concrete bad configuration. -/
theorem c8_config_error_fatal_witness :
    (driver 2016 cfg_unknown_kind inv_lct_missing true []
        { afData := none }).2.1 = Outcome.configError ∧
    Action.exportOutput ∉
      (driver 2016 cfg_unknown_kind inv_lct_missing true []
        { afData := none }).1 :=
  ⟨(c8_config_error_fatal 2016 cfg_unknown_kind inv_lct_missing true []
      { afData := none } rfl).1,
   (c8_config_error_fatal 2016 cfg_unknown_kind inv_lct_missing true []
      { afData := none } rfl).2.2⟩

/-- C9: the driver always runs the destructive active-fire import; on a
store that already holds imported detection data the previous data is
replaced by the new input, not left unchanged. -/
theorem c9_driver_reimports_destructively :
    (driver 2016 (rasters 2016) inv_covered true input_new db_populated).2.2
      ≠ db_populated ∧
    (driver 2016 (rasters 2016) inv_covered true input_new db_populated).2.2
      = { afData := some input_new } ∧
    Action.importAF ∈
      (driver 2016 (rasters 2016) inv_covered true input_new db_populated).1 := by
  decide

/-- On a fully covered intersection, no cell is lost extracting the data. -/
theorem data_cells_length_of_covered (cells : List (Option String))
    (h : ∀ x ∈ cells, x.isSome = true) :
    (data_cells cells).length = cells.length := by
  induction cells with
  | nil => rfl
  | cons x xs ih =>
    cases x with
    | none => simpa using h none (List.Mem.head _)
    | some a =>
      simp only [data_cells, List.filterMap_cons, id, List.length_cons]
      simp only [data_cells] at ih
      rw [ih (fun y hy => h y (List.Mem.tail _ hy))]

/-- C6: when the event geometry is fully covered by the thematic layer, the
per-category weights of the thematic AttributeSummary sum to exactly 1. -/
theorem c6_thematic_weights_sum_one (cells : List (Option String))
    (hne : cells ≠ []) (hcov : fully_covered cells) :
    ((thematic_summary cells).map Prod.snd).sum = 1 := by
  have hlen : (data_cells cells).length = cells.length :=
    data_cells_length_of_covered cells hcov
  have hpos : cells.length ≠ 0 := by
    simpa [List.length_eq_zero] using hne
  have hn : (cells.length : ℚ) ≠ 0 := Nat.cast_ne_zero.mpr hpos
  calc ((thematic_summary cells).map Prod.snd).sum
      = ((data_cells cells).dedup.map
          (fun c => ((data_cells cells).count c : ℚ) *
            (cells.length : ℚ)⁻¹)).sum := by
        simp only [thematic_summary, category_weight, List.map_map,
          div_eq_mul_inv]
        rfl
    _ = ((data_cells cells).dedup.map
          (fun c => ((data_cells cells).count c : ℚ))).sum *
            (cells.length : ℚ)⁻¹ :=
        List.sum_map_mul_right _ _ _
    _ = (((data_cells cells).dedup.map
          (fun c => (data_cells cells).count c)).sum : ℚ) *
            (cells.length : ℚ)⁻¹ := by
        rw [Nat.cast_list_sum, List.map_map]
        rfl
    _ = ((data_cells cells).length : ℚ) * (cells.length : ℚ)⁻¹ := by
        rw [List.sum_map_count_dedup_eq_length]
    _ = 1 := by
        rw [hlen]
        exact mul_inv_cancel₀ hn

/-- Witness for C6 on the fully covered 70/30 cell list. -/
theorem c6_thematic_weights_sum_one_witness :
    ((thematic_summary cells70).map Prod.snd).sum = 1 :=
  c6_thematic_weights_sum_one cells70 (by decide) (by decide)

/-- The running maximum kept by `dominant_category` comes from the summary
list and dominates every entry seen so far. -/
theorem dominant_foldl_spec :
    ∀ (l : List (String × ℚ)) (acc : Option (String × ℚ)) (x : String × ℚ),
      l.foldl (fun acc p =>
        match acc with
        | none => some p
        | some q => if q.2 < p.2 then some p else some q) acc = some x →
      (x ∈ l ∨ acc = some x) ∧ (∀ p ∈ l, p.2 ≤ x.2) ∧
        (∀ q, acc = some q → q.2 ≤ x.2) := by
  intro l
  induction l with
  | nil =>
    intro acc x h
    simp only [List.foldl_nil] at h
    exact ⟨Or.inr h, by simp, fun q hq => by rw [hq] at h; cases h; exact le_refl _⟩
  | cons p l ih =>
    intro acc x h
    rw [List.foldl_cons] at h
    obtain ⟨hmem, hmax, hacc⟩ := ih _ x h
    have hstep : ∀ y,
        (match acc with
          | none => some p
          | some q => if q.2 < p.2 then some p else some q) = some y →
          y.2 ≤ x.2 := hacc
    have hple : p.2 ≤ x.2 := by
      cases acc with
      | none => exact hstep p rfl
      | some q =>
        by_cases hlt : q.2 < p.2
        · exact hstep p (by simp [hlt])
        · exact le_trans (le_of_not_lt hlt) (hstep q (by simp [hlt]))
    refine ⟨?_, ?_, ?_⟩
    · rcases hmem with h1 | h2
      · exact Or.inl (List.mem_cons_of_mem _ h1)
      · cases acc with
        | none =>
          cases h2
          exact Or.inl (List.mem_cons_self _ _)
        | some q =>
          by_cases hlt : q.2 < p.2
          · simp only [hlt, if_true] at h2
            cases h2
            exact Or.inl (List.mem_cons_self _ _)
          · simp only [hlt, if_false] at h2
            exact Or.inr h2
    · intro r hr
      rcases List.mem_cons.mp hr with h1 | h2
      · rw [h1]; exact hple
      · exact hmax r h2
    · intro q0 hq0
      cases acc with
      | none => cases hq0
      | some q =>
        cases hq0
        by_cases hlt : q0.2 < p.2
        · exact le_trans (le_of_lt hlt) hple
        · exact hstep q0 (by simp [hlt])

/-- C7: the output fields `v_<var>`/`f_<var>` are the highest-weight
category of the thematic summary and its weight; on cells that are 70%
"forest" and 30% "grass" they are "forest" and 0.70. -/
theorem c7_dominant_category :
    (∀ cells v f, dominant_category cells = some (v, f) →
        (v, f) ∈ thematic_summary cells ∧
          ∀ p ∈ thematic_summary cells, p.2 ≤ f) ∧
    dominant_category cells70 = some ("forest", 7 / 10) := by
  constructor
  · intro cells v f h
    obtain ⟨hmem, hmax, -⟩ :=
      dominant_foldl_spec (thematic_summary cells) none (v, f) h
    rcases hmem with h1 | h2
    · exact ⟨h1, hmax⟩
    · cases h2
  · have h1 : (data_cells cells70).dedup = ["forest", "grass"] := by decide
    have h2 : (data_cells cells70).count "forest" = 7 := by decide
    have h3 : (data_cells cells70).count "grass" = 3 := by decide
    have h4 : cells70.length = 10 := by decide
    have h5 : thematic_summary cells70 =
        [("forest", 7 / 10), ("grass", 3 / 10)] := by
      simp [thematic_summary, h1, category_weight, h2, h3, h4]
    rw [dominant_category, h5]
    norm_num

/-- Witness for C7: applying the dominance property at the 70/30 cells. -/
theorem c7_dominant_category_witness :
    ("forest", (7 : ℚ) / 10) ∈ thematic_summary cells70 :=
  (c7_dominant_category.1 cells70 "forest" (7 / 10) c7_dominant_category.2).1

/-- Members of an event list, cons case. -/
theorem all_members_cons (e : FireEvent) (es : List FireEvent) :
    all_members (e :: es) = e.members ++ all_members es := by
  simp [all_members]

/-- Members of an event list, append case. -/
theorem all_members_append (es1 es2 : List FireEvent) :
    all_members (es1 ++ es2) = all_members es1 ++ all_members es2 := by
  simp [all_members]

/-- Every candidate pair indexes an eligible event of the list. -/
theorem candidates_spec (cfg : GroupConfig) (d : FireDetection) :
    ∀ (es : List FireEvent) (k i : Nat) (e : FireEvent),
      (i, e) ∈ candidates cfg d es k →
      ∃ j, i = k + j ∧ es[j]? = some e ∧ eligible cfg d e = true := by
  intro es
  induction es with
  | nil =>
    intro k i e h
    simp [candidates] at h
  | cons e0 es ih =>
    intro k i e h
    simp only [candidates, List.mem_append] at h
    rcases h with h1 | h2
    · by_cases he : eligible cfg d e0
      · simp only [he, if_true, List.mem_singleton, Prod.mk.injEq] at h1
        refine ⟨0, by omega, ?_, ?_⟩
        · simp [h1.2]
        · rw [← h1.2] at he
          exact he
      · simp [he] at h1
    · obtain ⟨j, hj, hget, hel⟩ := ih (k + 1) i e h2
      exact ⟨j + 1, by omega, by simpa using hget, hel⟩

/-- The running choice kept by `pick_best` comes from the candidate list. -/
theorem pick_foldl_mem (d : FireDetection) :
    ∀ (l : List (Nat × FireEvent)) (acc : Option (Nat × FireEvent))
      (x : Nat × FireEvent),
      l.foldl (fun acc p =>
        match acc with
        | none => some p
        | some q => if nearer d p.2 q.2 then some p else some q) acc = some x →
      x ∈ l ∨ acc = some x := by
  intro l
  induction l with
  | nil =>
    intro acc x h
    simp only [List.foldl_nil] at h
    exact Or.inr h
  | cons p l ih =>
    intro acc x h
    rw [List.foldl_cons] at h
    rcases ih _ x h with h1 | h2
    · exact Or.inl (List.mem_cons_of_mem _ h1)
    · cases acc with
      | none =>
        cases h2
        exact Or.inl (List.mem_cons_self _ _)
      | some q =>
        by_cases hn : nearer d p.2 q.2
        · simp only [hn, if_true] at h2
          cases h2
          exact Or.inl (List.mem_cons_self _ _)
        · simp only [hn, if_false] at h2
          exact Or.inr h2

/-- `pick_best` returns the position of an eligible event of the list. -/
theorem pick_best_spec (cfg : GroupConfig) (d : FireDetection)
    (evts : List FireEvent) (i : Nat) (e : FireEvent)
    (h : pick_best cfg d evts = some (i, e)) :
    evts[i]? = some e ∧ eligible cfg d e = true := by
  rcases pick_foldl_mem d (candidates cfg d evts 0) none (i, e) h with h1 | h2
  · obtain ⟨j, hj, hget, hel⟩ := candidates_spec cfg d evts 0 i e h1
    have hij : i = j := by omega
    rw [hij]
    exact ⟨hget, hel⟩
  · cases h2

/-- Every element of a point-modified list is an old element or the image of
the element at the modified position. -/
theorem mem_modify_idx :
    ∀ (es : List FireEvent) (i : Nat) (f : FireEvent → FireEvent)
      (x : FireEvent), x ∈ modify_idx es i f →
      x ∈ es ∨ ∃ e, es[i]? = some e ∧ x = f e := by
  intro es
  induction es with
  | nil =>
    intro i f x h
    simp [modify_idx] at h
  | cons e0 es ih =>
    intro i f x h
    cases i with
    | zero =>
      rcases List.mem_cons.mp h with h1 | h2
      · exact Or.inr ⟨e0, by simp, h1⟩
      · exact Or.inl (List.mem_cons_of_mem _ h2)
    | succ i =>
      rcases List.mem_cons.mp h with h1 | h2
      · exact Or.inl (h1 ▸ List.mem_cons_self _ _)
      · rcases ih i f x h2 with h3 | ⟨e, hget, hx⟩
        · exact Or.inl (List.mem_cons_of_mem _ h3)
        · exact Or.inr ⟨e, by simpa using hget, hx⟩

/-- Modifying position `i` with `add_to_event d` adds exactly one copy of
`d` to the collected members. -/
theorem count_all_members_modify (d a : FireDetection) :
    ∀ (es : List FireEvent) (i : Nat), i < es.length →
      (all_members (modify_idx es i (add_to_event d))).count a =
        (all_members es).count a + (if d = a then 1 else 0) := by
  intro es
  induction es with
  | nil =>
    intro i hi
    simp at hi
  | cons e0 es ih =>
    intro i hi
    cases i with
    | zero =>
      show (all_members (add_to_event d e0 :: es)).count a = _
      rw [all_members_cons, all_members_cons]
      simp only [add_to_event, List.count_append, List.count_cons,
        beq_iff_eq]
      omega
    | succ i =>
      show (all_members (e0 :: modify_idx es i (add_to_event d))).count a = _
      rw [all_members_cons, all_members_cons]
      simp only [List.count_append]
      have := ih i (by simpa using Nat.lt_of_succ_lt_succ hi)
      omega

/-- One grouping step adds the processed detection to the collected members
exactly when it is valid, and touches nothing else. -/
theorem count_group_step (cfg : GroupConfig) (st : List FireEvent × Nat)
    (d a : FireDetection) :
    (all_members (group_step cfg st d).1).count a =
      (all_members st.1).count a +
        (if d.valid = true then (if d = a then 1 else 0) else 0) := by
  by_cases hv : d.valid = true
  · simp only [group_step, hv, if_true]
    cases hp : pick_best cfg d st.1 with
    | none =>
      have hone : ∀ ev : FireEvent, ev.members = [d] →
          (all_members [ev]).count a = if d = a then 1 else 0 := by
        intro ev hev
        simp [all_members, hev, List.count_cons, beq_iff_eq]
      rw [all_members_append, List.count_append, hone _ rfl]
    | some ie =>
      obtain ⟨i, e0⟩ := ie
      obtain ⟨hget, -⟩ := pick_best_spec cfg d st.1 i e0 hp
      have hi : i < st.1.length := (List.getElem?_eq_some_iff.mp hget).1
      exact count_all_members_modify d a st.1 i hi
  · simp [group_step, hv]

/-- Folding the grouper over the detections adds exactly the valid
detections to the collected members. -/
theorem count_group_fold (cfg : GroupConfig) :
    ∀ (dets : List FireDetection) (st : List FireEvent × Nat)
      (a : FireDetection),
      (all_members ((dets.foldl (group_step cfg) st).1)).count a =
        (all_members st.1).count a +
          ((dets.filter (fun d => d.valid)).count a) := by
  intro dets
  induction dets with
  | nil =>
    intro st a
    simp
  | cons d ds ih =>
    intro st a
    rw [List.foldl_cons, ih]
    rw [count_group_step cfg st d a]
    by_cases hv : d.valid = true
    · simp only [hv, if_true, List.filter_cons_of_pos, List.count_cons,
        beq_iff_eq]
      omega
    · simp [hv]

/-- One grouping step preserves the date-span bound on every open event. -/
theorem span_group_step (cfg : GroupConfig) (st : List FireEvent × Nat)
    (d : FireDetection)
    (h : ∀ e ∈ st.1, e.lastDay - e.firstDay ≤ cfg.max_duration) :
    ∀ e ∈ (group_step cfg st d).1,
      e.lastDay - e.firstDay ≤ cfg.max_duration := by
  intro e he
  by_cases hv : d.valid = true
  · simp only [group_step, hv, if_true] at he
    cases hp : pick_best cfg d st.1 with
    | none =>
      rw [hp] at he
      simp only [] at he
      rcases List.mem_append.mp he with h1 | h2
      · exact h e h1
      · rcases List.mem_singleton.mp h2 with rfl
        simp
    | some ie =>
      obtain ⟨i, e0⟩ := ie
      rw [hp] at he
      simp only [] at he
      rcases mem_modify_idx st.1 i _ e he with h1 | ⟨e1, hget, hee⟩
      · exact h e h1
      · obtain ⟨hget0, hel⟩ := pick_best_spec cfg d st.1 i e0 hp
        rw [hget0] at hget
        have he1 : e1 = e0 := (Option.some.inj hget).symm
        simp only [eligible, Bool.and_eq_true, decide_eq_true_eq] at hel
        rw [hee, he1]
        simpa [add_to_event] using hel.2
  · simp only [group_step, hv] at he
    simp only [Bool.false_eq_true, if_false] at he
    exact h e he

/-- Folding the grouper preserves the date-span bound. -/
theorem span_group_fold (cfg : GroupConfig) :
    ∀ (dets : List FireDetection) (st : List FireEvent × Nat),
      (∀ e ∈ st.1, e.lastDay - e.firstDay ≤ cfg.max_duration) →
      ∀ e ∈ (dets.foldl (group_step cfg) st).1,
        e.lastDay - e.firstDay ≤ cfg.max_duration := by
  intro dets
  induction dets with
  | nil =>
    intro st h
    simpa using h
  | cons d ds ih =>
    intro st h
    rw [List.foldl_cons]
    exact ih _ (span_group_step cfg st d h)

/-- If no member list holds `a`, no event contains `a`. -/
theorem countP_events_of_sum_zero (a : FireDetection) :
    ∀ (l : List FireEvent),
      (l.map (fun e => e.members.count a)).sum = 0 →
      l.countP (fun e => decide (a ∈ e.members)) = 0 := by
  intro l
  induction l with
  | nil =>
    intro h
    simp
  | cons e l ih =>
    intro h
    simp only [List.map_cons, List.sum_cons] at h
    have h1 : e.members.count a = 0 := by omega
    have h2 : (l.map (fun e => e.members.count a)).sum = 0 := by omega
    have hna : a ∉ e.members := List.count_eq_zero.mp h1
    simp [List.countP_cons, hna, ih h2]

/-- If the member lists hold exactly one copy of `a` in total, exactly one
event contains `a`. -/
theorem countP_events_of_sum_one (a : FireDetection) :
    ∀ (l : List FireEvent),
      (l.map (fun e => e.members.count a)).sum = 1 →
      l.countP (fun e => decide (a ∈ e.members)) = 1 := by
  intro l
  induction l with
  | nil =>
    intro h
    simp at h
  | cons e l ih =>
    intro h
    simp only [List.map_cons, List.sum_cons] at h
    cases hc : e.members.count a with
    | zero =>
      have hna : a ∉ e.members := List.count_eq_zero.mp hc
      have h2 : (l.map (fun e => e.members.count a)).sum = 1 := by omega
      simp [List.countP_cons, hna, ih h2]
    | succ n =>
      have hn : n = 0 ∧ (l.map (fun e => e.members.count a)).sum = 0 := by
        omega
      have ha : a ∈ e.members := by
        have : e.members.count a ≠ 0 := by omega
        exact List.count_pos_iff.mp (Nat.pos_of_ne_zero this)
      simp [List.countP_cons, ha, countP_events_of_sum_zero a l hn.2]

/-- C3: after grouping a duplicate-free detection list, every valid
detection belongs to exactly one event, every event member is a valid input
detection, and no event's date span exceeds the configured maximum event
duration. -/
theorem c3_group_partition_and_span (cfg : GroupConfig)
    (dets : List FireDetection) (hnd : dets.Nodup) :
    (∀ d ∈ dets, d.valid = true →
      (group cfg dets).countP (fun e => decide (d ∈ e.members)) = 1) ∧
    (∀ e ∈ group cfg dets, ∀ m ∈ e.members, m ∈ dets ∧ m.valid = true) ∧
    (∀ e ∈ group cfg dets, e.lastDay - e.firstDay ≤ cfg.max_duration) := by
  have hcount : ∀ a : FireDetection,
      (all_members (group cfg dets)).count a =
        (dets.filter (fun d => d.valid)).count a := by
    intro a
    have := count_group_fold cfg dets ([], 0) a
    simpa [group, all_members] using this
  have hsum : ∀ a : FireDetection,
      ((group cfg dets).map (fun e => e.members.count a)).sum =
        (dets.filter (fun d => d.valid)).count a := by
    intro a
    rw [← hcount a]
    unfold all_members
    rw [List.count_flatten, List.map_map]
    rfl
  refine ⟨?_, ?_, ?_⟩
  · intro d hd hv
    have hfil : (dets.filter (fun x => x.valid)).count d = 1 := by
      rw [List.count_filter (by simpa using hv)]
      exact List.count_eq_one_of_mem hnd hd
    exact countP_events_of_sum_one d (group cfg dets)
      ((hsum d).trans hfil)
  · intro e he m hm
    have hpos : 0 < (all_members (group cfg dets)).count m := by
      apply List.count_pos_iff.mpr
      exact List.mem_flatten.mpr ⟨e.members, List.mem_map_of_mem _ he, hm⟩
    rw [hcount m] at hpos
    have hmem : m ∈ dets.filter (fun d => d.valid) :=
      List.count_pos_iff.mp hpos
    have := List.mem_filter.mp hmem
    exact ⟨this.1, this.2⟩
  · exact span_group_fold cfg dets ([], 0) (by simp)

/-- Witness for C3 on four concrete detections (two clustering on day 1,
one distant on day 5, one invalid): the first detection lies in exactly one
produced event. -/
theorem c3_group_partition_and_span_witness :
    (group cfgW detsW).countP (fun e => decide (dw1 ∈ e.members)) = 1 :=
  (c3_group_partition_and_span cfgW detsW (by decide)).1 dw1 (by decide) rfl

end Finn
